import Mathlib

/-
Verification development for the mdigger/sse package (HTML5 Server-Sent
Events for Go).

The development shallowly embeds the load-bearing parts of the package:

* the wire encoder built inline by Server.Event, Server.Comment and
  Server.Retry in sse.go (the same logic appears as Event.data,
  Comment.data and Retry.data in event.go);
* the registry of connected clients (Server.clients), its mutations from
  ServeHTTP (register / unregister a delivery channel), Server.Close,
  and the broadcast loop Server.send;
* the content-negotiation prefix of Server.ServeHTTP.

Go strings become Lean String, time.Duration becomes Int (nanoseconds,
as in Go), and the unbuffered delivery channels become an arena of Chan
records addressed by an allocation counter.  Sending on a channel whose
receiver is gone is modelled explicitly: a send on a closed channel
panics (as in Go), and a send on a channel whose receiver is not at its
select blocks.
-/

namespace SSE

/-! ## Go string primitives

The calls strings.Split(s, "\n") and strings.Replace(s, "\n", "\\n", -1)
are modelled character by character; since the separator / pattern is
the single character LF, the character-level versions coincide with the
Go functions. -/

/-- Go strings.Split(s, "\n"): the list of newline-separated segments of
s.  On the empty string the result is a single empty segment, exactly as
in Go. -/
def splitNL (s : String) : List String :=
  s.data.foldr
    (fun c acc =>
      if c = '\n' then "" :: acc
      else
        match acc with
        | h :: t => (String.singleton c ++ h) :: t
        | [] => [String.singleton c])
    [""]

/-- Go strings.Replace(s, "\n", "\\n", -1): every newline character is
replaced by the two characters backslash and n. -/
def escapeNL (s : String) : String :=
  String.join (s.data.map fun c => if c = '\n' then "\\n" else String.singleton c)

/-! ## Wire encoder (Server.Event buffer in sse.go / Event.data in event.go) -/

/-- The event block built by Server.Event in sse.go (and identically by
Event.data in event.go): an optional event line with newlines escaped,
one data line per newline-separated segment of the payload (nothing for
an empty payload), and an optional id line with newlines escaped.  The
call fmt.Fprintln(buf, "event:", x) writes the label, a space, x, and a
newline. -/
def encodeEvent (id name data : String) : String :=
  (if name = "" then "" else "event: " ++ escapeNL name ++ "\n")
    ++ (if data = "" then ""
        else String.join ((splitNL data).map fun line => "data: " ++ line ++ "\n"))
    ++ (if id = "" then "" else "id: " ++ escapeNL id ++ "\n")

/-- The comment block built by Server.Comment in sse.go (and by
Comment.data in event.go): one line per newline-separated segment of the
text, each prefixed by a colon. -/
def encodeComment (text : String) : String :=
  String.join ((splitNL text).map fun line => ": " ++ line ++ "\n")

/-- The retry line sent by Server.Retry in sse.go:
fmt.Sprintln("retry:", int64(d/1000/1000)) where d is a time.Duration in
nanoseconds; Go int64 division truncates toward zero, hence Int.tdiv. -/
def retryLine (d : Int) : String :=
  "retry: " ++ toString ((d.tdiv 1000).tdiv 1000) ++ "\n"

/-- The Go declaration type Retry time.Duration from event.go: the
reconnection-delay message type used by the Broker. -/
structure Retry where
  delay : Int
  deriving DecidableEq

/-- Method Retry.data from event.go: fmt.Sprintln("retry:", int64(r)) —
the delay is printed as the raw int64 value of the duration
(nanoseconds), with no conversion. -/
def Retry.data (r : Retry) : String :=
  "retry: " ++ toString r.delay ++ "\n"

/-- Method Broker.Retry from server.go: for a positive duration the
message Retry(through) is handed to the notifier, whose fan-out branch
sends the result of data() on the event to every client; a non-positive
duration sends nothing. -/
def brokerRetry (through : Int) : Option String :=
  if through > 0 then some (Retry.data ⟨through⟩) else none

/-! ## Server state (sse.go)

The field Server.clients is map[chan string]struct of empty, a set of
unbuffered delivery channels.  Channels are modelled in an arena chans
addressed by an allocation counter nextId; registry is the key set of
the map.  The counter closeOps counts how many close(channel) operations
have been performed, making a double close observable. -/

/-- The unbuffered delivery channel of one client.  The received field
records the values the handler loop has received from it, oldest first;
closed says the channel has been closed; stalled models a receiver that
is no longer at its select (a stalled consumer), so that a synchronous
send to it blocks. -/
structure Chan where
  received : List String
  closed : Bool
  stalled : Bool
  deriving DecidableEq

/-- The Server of sse.go: the arena of channels ever allocated, the key
set of the clients map, the allocation counter, and the number of close
operations performed so far. -/
structure Server where
  chans : List (Nat × Chan)
  registry : List Nat
  nextId : Nat
  closeOps : Nat
  deriving DecidableEq

/-- A zero-value Server, as produced by new(sse.Server). -/
def Server.init : Server := ⟨[], [], 0, 0⟩

/-- Look a channel up in the arena by identity. -/
def findChan (chans : List (Nat × Chan)) (i : Nat) : Option Chan :=
  (chans.find? fun p => p.1 == i).map (·.2)

/-- The effect of the handler loop receiving data from channel i: the
value is appended to the received log of that channel. -/
def deliverTo (chans : List (Nat × Chan)) (i : Nat) (data : String) : List (Nat × Chan) :=
  chans.map fun p =>
    if p.1 = i then (p.1, { p.2 with received := p.2.received ++ [data] }) else p

/-- Go close(channel) applied to channel i in the arena. -/
def markClosed (chans : List (Nat × Chan)) (i : Nat) : List (Nat × Chan) :=
  chans.map fun p =>
    if p.1 = i then (p.1, { p.2 with closed := true }) else p

/-- Outcome of the fan-out loop of Server.send, which ranges over the
clients map sending data synchronously to each channel: it either
completes, panics (Go panics on a send to a closed channel), or blocks
forever on the unbuffered channel of a stalled receiver (in blocked i s,
deliveries made before reaching sink i are already in s). -/
inductive SendOutcome where
  | ok (s : Server)
  | panicked (s : Server)
  | blocked (i : Nat) (s : Server)
  deriving DecidableEq

/-- The server state carried by an outcome (deliveries performed before a
panic or a block are included). -/
def SendOutcome.state : SendOutcome → Server
  | .ok s => s
  | .panicked s => s
  | .blocked _ s => s

/-- The fan-out loop of Server.send, iterating the registry: a send to a
closed channel panics, a send to a stalled receiver blocks, otherwise
the value is handed to the receiver and the loop continues. -/
def sendLoop (data : String) : Server → List Nat → SendOutcome
  | s, [] => .ok s
  | s, i :: rest =>
    match findChan s.chans i with
    | none => sendLoop data s rest
    | some c =>
      if c.closed then .panicked s
      else if c.stalled then .blocked i s
      else sendLoop data { s with chans := deliverTo s.chans i data } rest

/-- Method Server.send from sse.go: deliver data to every channel in the
clients map, one synchronous unbuffered send at a time. -/
def Server.send (s : Server) (data : String) : SendOutcome :=
  sendLoop data s s.registry

/-- Registration of a new client in Server.ServeHTTP: allocate a fresh
unbuffered channel and store it in the clients map.  Returns the
identity of the new channel and the new state. -/
def Server.join (s : Server) : Nat × Server :=
  (s.nextId,
   { chans := s.chans ++ [(s.nextId, ⟨[], false, false⟩)],
     registry := s.registry ++ [s.nextId],
     nextId := s.nextId + 1,
     closeOps := s.closeOps })

/-- Removal of a client, as performed by the teardown of Server.ServeHTTP
in sse.go (delete from the clients map followed by close(messages) when
the server did not already close it) and by the unregister branch of New
in server.go (close and delete only when the clients map still holds the
channel): when the sink is present it is removed from the registry and
its channel closed; otherwise nothing happens. -/
def Server.leave (s : Server) (i : Nat) : Server :=
  if i ∈ s.registry then
    { s with registry := s.registry.filter fun j => j != i,
             chans := markClosed s.chans i,
             closeOps := s.closeOps + 1 }
  else s

/-- Method Server.Close from sse.go: every registered channel is closed,
but the clients map itself is left untouched. -/
def Server.Close (s : Server) : Server :=
  { s with chans := s.chans.map fun p =>
             if p.1 ∈ s.registry then (p.1, { p.2 with closed := true }) else p,
           closeOps := s.closeOps + s.registry.length }

/-- Method Server.Connected from sse.go: the size of the clients map,
read under RLock. -/
def Server.Connected (s : Server) : Nat := s.registry.length

/-- Server.Connected as an observation: it returns the count and leaves
the state exactly as it was (the method only takes a read lock). -/
def Server.ConnectedObs (s : Server) : Nat × Server := (s.registry.length, s)

/-- The environment action of a consumer that stops draining its
connection: the receiver of its channel is no longer at the select. -/
def Server.stall (s : Server) (i : Nat) : Server :=
  { s with chans := s.chans.map fun p =>
             if p.1 = i then (p.1, { p.2 with stalled := true }) else p }

/-! ## Server.Event (sse.go) -/

deriving instance DecidableEq for Except

/-- The dynamic value passed to Server.Event, following the type switch
in sse.go: nil, string, byte slice, json.RawMessage, error, or any other
value together with the result of json.Marshal on it. -/
inductive Value where
  | vnil
  | vstring (s : String)
  | vbytes (b : String)
  | vraw (j : String)
  | verror (msg : String)
  | vother (marshal : Except String String)
  deriving DecidableEq

/-- The type switch at the top of Server.Event: the textual payload, or
the error returned by json.Marshal in the default branch. -/
def toData : Value → Except String String
  | .vnil => .ok ""
  | .vstring s => .ok s
  | .vbytes b => .ok b
  | .vraw j => .ok j
  | .verror m => .ok m
  | .vother (.ok d) => .ok d
  | .vother (.error e) => .error e

/-- Method Server.Event from sse.go: convert the value to text (returning
the json.Marshal error, if any, before anything is sent), build the
event block, and broadcast it with Server.send.  The first component is
the returned error; on the error path the state is exactly the input
state. -/
def Server.Event (s : Server) (id name : String) (v : Value) :
    Option String × SendOutcome :=
  match toData v with
  | .error e => (some e, .ok s)
  | .ok data => (none, s.send (encodeEvent id name data))

/-- Method Server.Comment from sse.go. -/
def Server.Comment (s : Server) (text : String) : SendOutcome :=
  s.send (encodeComment text)

/-- Method Server.Retry from sse.go. -/
def Server.Retry (s : Server) (d : Int) : SendOutcome :=
  s.send (retryLine d)

/-! ## The write loop of the handler, and content negotiation (ServeHTTP) -/

/-- One iteration of the ServeHTTP pump loop writing a received chunk to
the response: fmt.Fprintln(w, data) writes data followed by a newline —
since every non-empty encoded block already ends in a newline, this
trailing newline is the blank line separating SSE messages. -/
def writeChunk (data : String) : String := data ++ "\n"

/-- Everything the connection of client i has been sent: each received
chunk written by fmt.Fprintln, concatenated in order. -/
def clientStream (s : Server) (i : Nat) : String :=
  match findChan s.chans i with
  | some c => String.join (c.received.map writeChunk)
  | none => ""

/-- The text/event-stream media type (constant mimetype in sse.go). -/
def mimetype : String := "text/event-stream"

/-- ASCII lower-casing of one character, as performed by
mime.ParseMediaType on the media type. -/
def asciiLower (c : Char) : Char :=
  if 'A' ≤ c ∧ c ≤ 'Z' then Char.ofNat (c.toNat + 32) else c

/-- Drop leading spaces and tabs. -/
def dropSpaces (cs : List Char) : List Char :=
  cs.dropWhile fun c => c = ' ' ∨ c = '\t'

/-- The media type extracted from an Accept header value by
mime.ParseMediaType: the part before any parameters (separated by a
semicolon), trimmed of surrounding white space and lower-cased (on a
malformed header Go returns an empty media type, which likewise fails
the comparison with mimetype). -/
def parseMediaType (accept : String) : String :=
  let beforeSemi := accept.data.takeWhile fun c => c ≠ ';'
  String.mk ((dropSpaces (dropSpaces beforeSemi.reverse).reverse).map asciiLower)

/-- An HTTP response as far as this package determines it. -/
structure Response where
  status : Nat
  headers : List (String × String)
  body : String
  deriving DecidableEq

/-- The response produced by the rejection branch of Server.ServeHTTP:
the handler sets the Accept header and calls http.Error with status 406
(which adds its own plain-text headers and body; the second WriteHeader
call in the source is a no-op since the status is already written). -/
def notAcceptableResponse : Response :=
  { status := 406,
    headers := [("Accept", mimetype),
                ("Content-Type", "text/plain; charset=utf-8"),
                ("X-Content-Type-Options", "nosniff")],
    body := "Not Acceptable\n" }

/-- The negotiation-and-registration phase of Server.ServeHTTP from
sse.go: when the parsed Accept media type is not text/event-stream the
request is rejected with 406 and no channel is registered; otherwise the
SSE headers are set and a fresh channel is registered (the pump loop
that follows is modelled by clientStream). -/
def Server.ServeHTTP (s : Server) (accept : String) : Response × Server :=
  if parseMediaType accept ≠ mimetype then
    (notAcceptableResponse, s)
  else
    ({ status := 200,
       headers := [("Content-Type", mimetype), ("Cache-Control", "no-cache")],
       body := "" },
     (s.join).2)

/-! ## Operation traces over the registry -/

/-- The three registry operations of the broadcast engine. -/
inductive Op where
  | join
  | leave (i : Nat)
  | publish (data : String)
  deriving DecidableEq

/-- Apply one operation to the server state.  A publish leaves behind
whatever state the fan-out reached (registry membership is never touched
by Server.send). -/
def applyOp (s : Server) : Op → Server
  | .join => (s.join).2
  | .leave i => s.leave i
  | .publish data => (s.send data).state

/-- Run a trace of operations from the zero-value server. -/
def run (ops : List Op) : Server := ops.foldl applyOp Server.init

/-- Modelled from the spec: one step of the trace-level bookkeeping of
the set of sinks that have Joined and not yet Left, written over a
Finset so that it is independent of the implementation registry.  A join
adds the next fresh identity, a leave removes an identity, a publish
changes nothing. -/
def specStep : Finset Nat × Nat → Op → Finset Nat × Nat
  | (act, n), .join => (insert n act, n + 1)
  | (act, n), .leave i => (act.erase i, n)
  | (act, n), .publish _ => (act, n)

/-- Modelled from the spec: the set of sinks that have Joined and not
yet Left after a trace of operations. -/
def specActive (ops : List Op) : Finset Nat := (ops.foldl specStep (∅, 0)).1

/-- The coupling invariant between the implementation registry and the
trace-level active set: the registry is duplicate-free, enumerates
exactly the active set, and only holds identities below the allocation
counter. -/
def Inv (s : Server) (p : Finset Nat × Nat) : Prop :=
  s.registry.Nodup ∧ s.registry.toFinset = p.1 ∧ s.nextId = p.2 ∧
    ∀ i ∈ s.registry, i < s.nextId

/-- Every registered channel exists, is open, and has a receiver at its
select — the precondition under which the fan-out of Server.send
completes. -/
def healthy (s : Server) : Bool :=
  s.registry.all fun i =>
    match findChan s.chans i with
    | some c => !c.closed && !c.stalled
    | none => false

/-! ## Concrete states used by the concrete scenarios -/

/-- A server with one connected client (channel 0). -/
def oneClient : Server := (Server.init.join).2

/-- A server with two connected clients (channels 0 and 1). -/
def twoClients : Server := ((Server.init.join).2.join).2

/-- Two connected clients, the consumer of client 0 stalled. -/
def stalledFirst : Server := twoClients.stall 0

/-- The state of oneClient after the tick event of the end-to-end
scenario has been delivered. -/
def tickServer : Server :=
  ⟨[(0, ⟨["event: tick\ndata: 12:00:00\nid: 1\n"], false, false⟩)], [0], 1, 0⟩

/-! ## Helper lemmas -/

theorem leave_of_notMem (s : Server) (i : Nat) (h : i ∉ s.registry) : s.leave i = s := by
  simp [Server.leave, h]

theorem notMem_leave (s : Server) (i : Nat) : i ∉ (s.leave i).registry := by
  unfold Server.leave
  by_cases h : i ∈ s.registry <;> simp [h, List.mem_filter]

theorem leave_leave (s : Server) (i : Nat) : (s.leave i).leave i = s.leave i :=
  leave_of_notMem _ _ (notMem_leave s i)

theorem event_marshal_err (s : Server) (id name : String) (v : Value) (e : String)
    (h : toData v = .error e) : s.Event id name v = (some e, .ok s) := by
  simp [Server.Event, h]

theorem encode_split (p : String) :
    encodeEvent "" "" p =
      if p = "" then ""
      else String.join ((splitNL p).map fun line => "data: " ++ line ++ "\n") := by
  by_cases hp : p = "" <;> simp [encodeEvent, hp]

theorem reject_bad_accept (s : Server) (accept : String)
    (h : parseMediaType accept ≠ mimetype) :
    Server.ServeHTTP s accept = (notAcceptableResponse, s) := by
  simp [Server.ServeHTTP, h]

theorem sendLoop_registry (data : String) :
    ∀ (l : List Nat) (s : Server),
      (sendLoop data s l).state.registry = s.registry ∧
      (sendLoop data s l).state.nextId = s.nextId
  | [], s => ⟨rfl, rfl⟩
  | i :: rest, s => by
    unfold sendLoop
    cases h : findChan s.chans i with
    | none => exact sendLoop_registry data rest s
    | some c =>
      by_cases hc : c.closed
      · simp [hc, SendOutcome.state]
      · by_cases hs : c.stalled
        · simp [hc, hs, SendOutcome.state]
        · simpa [hc, hs] using
            sendLoop_registry data rest { s with chans := deliverTo s.chans i data }

theorem inv_applyOp {s : Server} {p : Finset Nat × Nat} (h : Inv s p) (op : Op) :
    Inv (applyOp s op) (specStep p op) := by
  obtain ⟨hnd, hset, hn, hbd⟩ := h
  obtain ⟨act, n⟩ := p
  dsimp only at hset hn
  cases op with
  | join =>
    have hfresh : s.nextId ∉ s.registry := fun hmem => absurd (hbd _ hmem) (lt_irrefl _)
    refine ⟨?_, ?_, by simp [applyOp, Server.join, specStep, hn], ?_⟩
    · simp [applyOp, Server.join, List.nodup_append, hnd, List.disjoint_singleton, hfresh]
    · show (s.registry ++ [s.nextId]).toFinset = insert n act
      rw [show (s.registry ++ [s.nextId]).toFinset = s.registry.toFinset ∪ {s.nextId} by simp,
        hset, hn, Finset.insert_eq, Finset.union_comm]
    · intro i hi
      simp only [applyOp, Server.join, List.mem_append, List.mem_singleton] at hi ⊢
      rcases hi with hi | hi
      · exact Nat.lt_succ_of_lt (hbd i hi)
      · simp [hi]
  | leave i =>
    simp only [applyOp, Server.leave, specStep]
    by_cases hm : i ∈ s.registry
    · simp only [hm, if_pos]
      refine ⟨hnd.filter _, ?_, hn, ?_⟩
      · ext a
        simp only [List.mem_toFinset, List.mem_filter, Finset.mem_erase, ← hset, bne_iff_ne]
        tauto
      · intro a ha
        simp only [List.mem_filter] at ha
        exact hbd a ha.1
    · simp only [hm, if_neg, not_false_iff]
      refine ⟨hnd, ?_, hn, hbd⟩
      rw [Finset.erase_eq_of_not_mem, hset]
      rw [← hset, List.mem_toFinset]; exact hm
  | publish data =>
    obtain ⟨hr, hx⟩ := sendLoop_registry data s.registry s
    refine ⟨?_, ?_, ?_, ?_⟩ <;>
      simp only [applyOp, Server.send, specStep, hr, hx]
    · exact hnd
    · exact hset
    · exact hn
    · exact hbd

theorem foldl_inv : ∀ (ops : List Op) (s : Server) (p : Finset Nat × Nat), Inv s p →
    Inv (ops.foldl applyOp s) (ops.foldl specStep p)
  | [], _, _, h => h
  | op :: ops, _, _, h => foldl_inv ops _ _ (inv_applyOp h op)

theorem run_inv (ops : List Op) : Inv (run ops) (ops.foldl specStep (∅, 0)) :=
  foldl_inv ops Server.init (∅, 0)
    ⟨List.nodup_nil, by simp [Server.init], rfl, by simp [Server.init]⟩

theorem findChan_cons (k : Nat) (c : Chan) (tl : List (Nat × Chan)) (i : Nat) :
    findChan ((k, c) :: tl) i = if k = i then some c else findChan tl i := by
  by_cases h : k = i
  · simp [findChan, List.find?, h]
  · have hb : (k == i) = false := by simpa using h
    simp [findChan, List.find?, hb, h]

theorem deliverTo_cons (k : Nat) (c : Chan) (tl : List (Nat × Chan)) (j : Nat) (data : String) :
    deliverTo ((k, c) :: tl) j data =
      (if k = j then (k, { c with received := c.received ++ [data] }) else (k, c))
        :: deliverTo tl j data := by
  by_cases h : k = j <;> simp [deliverTo, h]

theorem findChan_deliverTo (chans : List (Nat × Chan)) (j i : Nat) (data : String) :
    findChan (deliverTo chans j data) i =
      if i = j then
        (findChan chans i).map fun c => { c with received := c.received ++ [data] }
      else findChan chans i := by
  induction chans with
  | nil => by_cases h : i = j <;> simp [findChan, deliverTo, h]
  | cons hd tl ih =>
    obtain ⟨k, c⟩ := hd
    rw [deliverTo_cons]
    by_cases hki : k = i
    · subst hki
      by_cases hkj : k = j
      · subst hkj
        simp [findChan_cons]
      · simp [findChan_cons, hkj]
    · by_cases hkj : k = j
      · subst hkj
        simp [findChan_cons, hki, ih]
      · simp [findChan_cons, hki, hkj, ih]

theorem healthy_spec (s : Server) (h : healthy s = true) :
    ∀ i ∈ s.registry, ∃ c, findChan s.chans i = some c ∧
      c.closed = false ∧ c.stalled = false := by
  intro i hi
  have hh := (List.all_eq_true.mp h) i hi
  cases hc : findChan s.chans i with
  | none => rw [hc] at hh; simp at hh
  | some c =>
    rw [hc] at hh
    simp only [Bool.and_eq_true, Bool.not_eq_true'] at hh
    exact ⟨c, rfl, hh.1, hh.2⟩

theorem sendLoop_all_open (data : String) :
    ∀ (l : List Nat) (s : Server),
      (∀ i ∈ l, ∃ c, findChan s.chans i = some c ∧ c.closed = false ∧ c.stalled = false) →
      l.Nodup →
      ∃ s', sendLoop data s l = .ok s' ∧
        s'.registry = s.registry ∧
        (∀ i ∈ l, ∃ c, findChan s.chans i = some c ∧
          findChan s'.chans i = some { c with received := c.received ++ [data] }) ∧
        (∀ i, i ∉ l → findChan s'.chans i = findChan s.chans i)
  | [], s, _, _ => ⟨s, rfl, rfl, by simp, fun _ _ => rfl⟩
  | i :: rest, s, h, hnd => by
    obtain ⟨c, hc, hcl, hst⟩ := h i (List.mem_cons_self i rest)
    have hnotin : i ∉ rest := (List.nodup_cons.mp hnd).1
    have hndr : rest.Nodup := (List.nodup_cons.mp hnd).2
    set s2 : Server := { s with chans := deliverTo s.chans i data } with hs2
    have hsame : ∀ k, k ≠ i → findChan s2.chans k = findChan s.chans k := by
      intro k hk
      simp [hs2, findChan_deliverTo, hk]
    have hrest : ∀ k ∈ rest, ∃ c, findChan s2.chans k = some c ∧
        c.closed = false ∧ c.stalled = false := by
      intro k hk
      have hki : k ≠ i := fun e => hnotin (e ▸ hk)
      rw [hsame k hki]
      exact h k (List.mem_cons_of_mem i hk)
    obtain ⟨s', hrun, hreg, hdel, hout⟩ := sendLoop_all_open data rest s2 hrest hndr
    refine ⟨s', ?_, by simpa using hreg, ?_, ?_⟩
    · unfold sendLoop
      rw [hc]
      simp [hcl, hst, ← hs2, hrun]
    · intro k hk
      rcases List.mem_cons.mp hk with rfl | hk
      · refine ⟨c, hc, ?_⟩
        rw [hout k hnotin, hs2]
        simp [findChan_deliverTo, hc]
      · have hki : k ≠ i := fun e => hnotin (e ▸ hk)
        obtain ⟨ck, hck, hck2⟩ := hdel k hk
        rw [hsame k hki] at hck
        exact ⟨ck, hck, hck2⟩
    · intro k hk
      have hki : k ≠ i := fun e => hk (e ▸ List.mem_cons_self i rest)
      have hkr : k ∉ rest := fun e => hk (List.mem_cons_of_mem i e)
      rw [hout k hkr, hsame k hki]

/-! ## Claims -/

/-- C1.  The claim states that every publishing path emits the retry
field as the integer truncation of the duration to milliseconds.  The
path Server.Retry in sse.go does (first conjunct), but the Retry message
type of event.go used by the Broker prints the raw int64 nanosecond
value: for a one-second duration it emits 1000000000 instead of 1000, so
the two paths disagree (remaining conjuncts evaluate the code at this
failing input). -/
theorem retry_broker_prints_nanoseconds :
    retryLine 1000000000 = "retry: 1000\n" ∧
    Retry.data ⟨1000000000⟩ = "retry: 1000000000\n" ∧
    brokerRetry 1000000000 = some "retry: 1000000000\n" ∧
    Retry.data ⟨1000000000⟩ ≠ retryLine 1000000000 := by
  refine ⟨by decide, by decide, by decide, by decide⟩

/-- C2.  After Server.Close on a server with one connected client, the
channel of every sink that was active at that moment is closed (first
two conjuncts), but the claim that subsequent publishes are refused or
no-ops fails: the clients map still holds the now-closed channel, so the
next Event, Comment or Retry performs a send on a closed channel, which
panics in Go (last three conjuncts evaluate the code there). -/
theorem Close_then_publish_panics :
    Server.Close oneClient = { oneClient with chans := [(0, ⟨[], true, false⟩)], closeOps := 1 } ∧
    (Server.Close oneClient).registry = [0] ∧
    (Server.Close oneClient).Event "" "" (Value.vstring "x")
      = (none, .panicked (Server.Close oneClient)) ∧
    (Server.Close oneClient).Comment "hello" = .panicked (Server.Close oneClient) ∧
    (Server.Close oneClient).Retry 1000000 = .panicked (Server.Close oneClient) := by
  refine ⟨by decide, by decide, by decide, by decide, by decide⟩

/-- C3.  For every trace of Join, Leave and Publish operations, Connected
returns exactly the cardinality of the trace-level set of sinks that
have Joined and not yet Left (specActive, written independently over a
Finset), and observing Connected leaves the state unchanged. -/
theorem Connected_counts_active (ops : List Op) :
    (run ops).Connected = (specActive ops).card ∧
    (run ops).ConnectedObs.2 = run ops := by
  obtain ⟨hnd, hset, -, -⟩ := run_inv ops
  refine ⟨?_, rfl⟩
  rw [Server.Connected, specActive, ← hset, List.toFinset_card_of_nodup hnd]

/-- C4.  Leave is idempotent: leaving a sink that is not registered is a
no-op, a second Leave of the same sink changes nothing — in particular
the registry, the connected count and the number of close operations
performed are untouched, so the delivery channel is never closed twice
and nothing panics. -/
theorem Leave_idempotent (s : Server) (i : Nat) :
    (i ∉ s.registry → s.leave i = s) ∧
    (s.leave i).leave i = s.leave i ∧
    ((s.leave i).leave i).registry = (s.leave i).registry ∧
    ((s.leave i).leave i).Connected = (s.leave i).Connected ∧
    ((s.leave i).leave i).closeOps = (s.leave i).closeOps := by
  refine ⟨leave_of_notMem s i, leave_leave s i, ?_, ?_, ?_⟩ <;> rw [leave_leave s i]

/-- Witness for C4 at concrete inputs: leaving an unregistered sink is a
no-op, and a second leave of a registered sink changes nothing. -/
theorem Leave_idempotent_witness :
    oneClient.leave 5 = oneClient ∧
    (oneClient.leave 0).leave 0 = oneClient.leave 0 :=
  ⟨(Leave_idempotent oneClient 5).1 (by decide), (Leave_idempotent oneClient 0).2.1⟩

/-- C5.  When the conversion of the value to text fails (json.Marshal
returns an error in the default branch of the type switch), Server.Event
returns exactly that error and the state is exactly the input state, so
no sink receives any part of the message. -/
theorem Event_marshal_error_no_broadcast (s : Server) (id name : String) (v : Value)
    (e : String) (h : toData v = .error e) :
    s.Event id name v = (some e, SendOutcome.ok s) ∧
    ∀ i, clientStream ((s.Event id name v).2.state) i = clientStream s i := by
  refine ⟨event_marshal_err s id name v e h, fun i => ?_⟩
  rw [event_marshal_err s id name v e h]
  rfl

/-- Witness for C5 at a concrete failing value: the marshalling error is
returned and the one-client server is untouched. -/
theorem Event_marshal_error_witness :
    toData (Value.vother (Except.error "boom")) = Except.error "boom" ∧
    oneClient.Event "1" "x" (Value.vother (Except.error "boom"))
      = (some "boom", SendOutcome.ok oneClient) :=
  ⟨rfl, (Event_marshal_error_no_broadcast oneClient "1" "x"
    (Value.vother (Except.error "boom")) "boom" rfl).1⟩

/-- C6.  End-to-end: on a server with one connected client, publishing
the tick event delivers one chunk to the client, and the stream the
handler writes for it is exactly the block with the fields in the order
event, data, id, each line newline-terminated and followed by the blank
separator line added by the final Fprintln of the handler. -/
theorem Event_tick_stream :
    oneClient.Event "1" "tick" (Value.vstring "12:00:00") = (none, .ok tickServer) ∧
    clientStream tickServer 0 = "event: tick\ndata: 12:00:00\nid: 1\n\n" := by
  refine ⟨by decide, by decide⟩

/-- C7.  Encoding an event with empty name and id and payload "a\nb"
yields exactly the two data lines and nothing else; in general the
payload is split on newlines with one data line per segment, and an
empty payload emits nothing. -/
theorem encode_payload_data_lines :
    encodeEvent "" "" "a\nb" = "data: a\ndata: b\n" ∧
    splitNL "a\nb" = ["a", "b"] ∧
    encodeEvent "" "" "" = "" ∧
    ∀ p, encodeEvent "" "" p =
      if p = "" then ""
      else String.join ((splitNL p).map fun line => "data: " ++ line ++ "\n") :=
  ⟨by decide, by decide, by decide, encode_split⟩

/-- C8.  Every request whose Accept header does not parse to the
text/event-stream media type is answered with status 406, the response
headers echo Accept: text/event-stream, no sink is registered, and
Connected is unchanged. -/
theorem ServeHTTP_rejects_bad_accept (s : Server) (accept : String)
    (h : parseMediaType accept ≠ mimetype) :
    Server.ServeHTTP s accept = (notAcceptableResponse, s) ∧
    notAcceptableResponse.status = 406 ∧
    ("Accept", mimetype) ∈ notAcceptableResponse.headers ∧
    (Server.ServeHTTP s accept).2.Connected = s.Connected := by
  refine ⟨reject_bad_accept s accept h, rfl, by simp [notAcceptableResponse], ?_⟩
  rw [reject_bad_accept s accept h]

/-- Witness for C8 at a concrete request: an Accept header of text/plain
is rejected and the one-client server is untouched. -/
theorem ServeHTTP_rejects_witness :
    parseMediaType "text/plain" ≠ mimetype ∧
    Server.ServeHTTP oneClient "text/plain" = (notAcceptableResponse, oneClient) :=
  ⟨by decide, (ServeHTTP_rejects_bad_accept oneClient "text/plain" (by decide)).1⟩

/-- C9.  The claim states that a stalled consumer never blocks delivery
to the healthy sinks.  The code is the unbounded synchronous fan-out the
specification disallows: with two clients where the consumer of sink 0
is stalled and sink 1 is healthy and open, a publish blocks forever on
the unbuffered channel of sink 0 and the healthy sink 1 receives
nothing (its stream stays empty). -/
theorem stalled_sink_blocks_fanout :
    findChan stalledFirst.chans 1 = some ⟨[], false, false⟩ ∧
    stalledFirst.send "x" = .blocked 0 stalledFirst ∧
    clientStream stalledFirst 1 = "" := by
  refine ⟨by decide, by decide, by decide⟩

/-- C10.  Calling Event with empty id, empty name and a nil (or
empty-string) value returns no error and still broadcasts the empty
encoded string to every connected sink of a healthy duplicate-free
registry; the handler then writes that empty chunk with Fprintln, so
each connected client receives exactly one bare blank line. -/
theorem Event_all_empty_broadcasts (s : Server) (h : healthy s = true)
    (hnd : s.registry.Nodup) :
    encodeEvent "" "" "" = "" ∧
    writeChunk (encodeEvent "" "" "") = "\n" ∧
    ∃ s', s.Event "" "" Value.vnil = (none, .ok s') ∧
      s.Event "" "" (Value.vstring "") = (none, .ok s') ∧
      s'.registry = s.registry ∧
      ∀ i ∈ s.registry, ∃ c, findChan s.chans i = some c ∧
        findChan s'.chans i = some { c with received := c.received ++ [""] } := by
  obtain ⟨s', hrun, hreg, hdel, -⟩ :=
    sendLoop_all_open "" s.registry s (healthy_spec s h) hnd
  refine ⟨rfl, rfl, s', ?_, ?_, hreg, hdel⟩ <;>
    simp [Server.Event, toData, Server.send, show encodeEvent "" "" "" = "" from rfl, hrun]

/-- Witness for C10 at the two-client server: the hypotheses hold there
and the empty event encodes to the empty string. -/
theorem Event_all_empty_witness :
    healthy twoClients = true ∧ twoClients.registry.Nodup ∧ encodeEvent "" "" "" = "" :=
  ⟨by decide, by decide, (Event_all_empty_broadcasts twoClients (by decide) (by decide)).1⟩

end SSE
